import Mathlib

/-!
Verification development for the neonplex repository.

Bytes are modelled as `List Nat` (each element a byte value 0..255; the
encoders below only ever emit values < 256, and the decoders are given the
same lists back, so byte-range side conditions are not needed for the
round-trip results). JavaScript strings that reach the wire are modelled by
their UTF-8 byte sequences.

Decoders are written in parser style: they consume a prefix of the input
list and return the parsed value together with the unconsumed rest, or
`none` where the JavaScript code would throw.
-/

namespace Neonplex

/-- UTF-8 bytes of an ASCII string (used for the fixed code/message string
constants of the repository, all of which are ASCII, so each byte is the
character's code point). -/
def ascii (s : String) : List Nat := s.data.map Char.toNat

/-- UTF-8 bytes of an arbitrary string, as produced by `b4a.from(s, 'utf8')`. -/
def utf8Bytes (s : String) : List Nat := s.toUTF8.toList.map (fun b => b.toNat)

/-! ## Little-endian integer helpers

`src/bytes/index.js` is not part of the shipped sources; per the spec (§6)
the sub-encoders are u16/u32 little-endian length prefixes and single-byte
booleans (1 = true). Modelled from the spec: `encodeU16LE`, `decodeU16LE`,
`encodeU32LE`, `decodeU32LE`, `encodeBool`, `decodeBool`. The same
fixed-width layouts are used by the external `compact-encoding` library's
`uint16`/`uint32` sub-codecs. -/

/-- Two little-endian bytes of `n` (low byte first). -/
def encodeU16LE (n : Nat) : List Nat := [n % 256, n / 256 % 256]

/-- Parse two little-endian bytes. -/
def decodeU16LE : List Nat → Option (Nat × List Nat)
  | b0 :: b1 :: rest => some (b0 + 256 * b1, rest)
  | _ => none

/-- Four little-endian bytes of `n` (low byte first). -/
def encodeU32LE (n : Nat) : List Nat :=
  [n % 256, n / 256 % 256, n / 65536 % 256, n / 16777216 % 256]

/-- Parse four little-endian bytes. -/
def decodeU32LE : List Nat → Option (Nat × List Nat)
  | b0 :: b1 :: b2 :: b3 :: rest =>
      some (b0 + 256 * b1 + 65536 * b2 + 16777216 * b3, rest)
  | _ => none

/-- Single-byte boolean, 1 = true, 0 = false. -/
def encodeBool (b : Bool) : List Nat := [if b then 1 else 0]

/-- Parse a single-byte boolean: the byte is compared against 1
(as in `compact-encoding`'s `bool.decode` and the spec's "1 = true"). -/
def decodeBool : List Nat → Option (Bool × List Nat)
  | b :: rest => some (b == 1, rest)
  | _ => none

/-! ## compact-encoding primitives (external library model)

The request codecs of `src/protocol/store.js` are built from the external
`compact-encoding` npm library's `uint8array` (`U8`) and `bool` (`B`)
sub-codecs. These are modelled here by their documented behaviour: a
compact unsigned-int length prefix (one byte when ≤ 0xfc, `0xfd` + u16le,
`0xfe` + u32le, `0xff` + u64le) followed by the raw bytes. -/

/-- Eight little-endian bytes of `n`. -/
def encodeU64LE (n : Nat) : List Nat :=
  [n % 256, n / 256 % 256, n / 65536 % 256, n / 16777216 % 256,
   n / 4294967296 % 256, n / 1099511627776 % 256,
   n / 281474976710656 % 256, n / 72057594037927936 % 256]

/-- Parse eight little-endian bytes. -/
def decodeU64LE : List Nat → Option (Nat × List Nat)
  | b0 :: b1 :: b2 :: b3 :: b4 :: b5 :: b6 :: b7 :: rest =>
      some (b0 + 256 * b1 + 65536 * b2 + 16777216 * b3 + 4294967296 * b4
            + 1099511627776 * b5 + 281474976710656 * b6
            + 72057594037927936 * b7, rest)
  | _ => none

/-- `compact-encoding` compact unsigned integer, encode side. -/
def ceUintEncode (n : Nat) : List Nat :=
  if n ≤ 0xfc then [n]
  else if n ≤ 0xffff then 0xfd :: encodeU16LE n
  else if n ≤ 0xffffffff then 0xfe :: encodeU32LE n
  else 0xff :: encodeU64LE n

/-- `compact-encoding` compact unsigned integer, decode side. -/
def ceUintDecode : List Nat → Option (Nat × List Nat)
  | [] => none
  | a :: rest =>
      if a ≤ 0xfc then some (a, rest)
      else if a = 0xfd then decodeU16LE rest
      else if a = 0xfe then decodeU32LE rest
      else decodeU64LE rest

/-- `compact-encoding` `uint8array`: compact-uint length prefix then bytes. -/
def ceBytesEncode (bs : List Nat) : List Nat := ceUintEncode bs.length ++ bs

/-- `compact-encoding` `uint8array` decode: length prefix, then that many
bytes (out-of-bounds reads throw in the library → `none` here). -/
def ceBytesDecode (l : List Nat) : Option (List Nat × List Nat) :=
  match ceUintDecode l with
  | none => none
  | some (len, rest) =>
      if len ≤ rest.length then some (rest.take len, rest.drop len) else none

/-! ## Request payload codecs (`src/protocol/store.js`)

Caller-side `caps` is either absent or a byte string; `capsToBytes`
normalises the empty byte string to "absent" exactly as the source does
(the source additionally UTF-8-encodes string tokens first; a string input
is modelled by its `utf8Bytes`). -/

/-- `capsToBytes` of `src/protocol/store.js`: `null`/absent and empty byte
strings become `none`; non-empty bytes pass through. -/
def capsToBytes : Option (List Nat) → Option (List Nat)
  | none => none
  | some bs => if bs.isEmpty then none else some bs

/-- `capsEncode`: a boolean presence flag, then (when present) the bytes. -/
def capsEncode (caps : Option (List Nat)) : List Nat :=
  match capsToBytes caps with
  | none => encodeBool false
  | some bs => encodeBool true ++ ceBytesEncode bs

/-- `capsDecode`: nothing left in the state means no caps; otherwise a
presence flag and, when set, the bytes (an empty byte string decodes to
absent). -/
def capsDecode (l : List Nat) : Option (Option (List Nat) × List Nat) :=
  match l with
  | [] => some (none, [])
  | _ =>
    match decodeBool l with
    | none => none
    | some (hasCaps, rest) =>
      if hasCaps then
        match ceBytesDecode rest with
        | none => none
        | some (bs, rest2) => some (if bs.isEmpty then none else some bs, rest2)
      else some (none, rest)

/-- Key-only request message (`get`, `del`): missing keys encode as the
empty byte string (`m?.key || new Uint8Array(0)`). -/
structure KeyReqMsg where
  key : List Nat
  caps : Option (List Nat)
deriving DecidableEq, Repr

def keyReqEncode (m : KeyReqMsg) : List Nat :=
  ceBytesEncode m.key ++ capsEncode m.caps

def keyReqDecode (l : List Nat) : Option KeyReqMsg :=
  match ceBytesDecode l with
  | none => none
  | some (key, rest) =>
    match capsDecode rest with
    | none => none
    | some (caps, _) => some ⟨key, caps⟩

/-- Put request message (`{ key, value, caps? }`). -/
structure PutReqMsg where
  key : List Nat
  value : List Nat
  caps : Option (List Nat)
deriving DecidableEq, Repr

def putReqEncode (m : PutReqMsg) : List Nat :=
  ceBytesEncode m.key ++ ceBytesEncode m.value ++ capsEncode m.caps

def putReqDecode (l : List Nat) : Option PutReqMsg :=
  match ceBytesDecode l with
  | none => none
  | some (key, rest) =>
    match ceBytesDecode rest with
    | none => none
    | some (value, rest2) =>
      match capsDecode rest2 with
      | none => none
      | some (caps, _) => some ⟨key, value, caps⟩

/-- Append request message (`{ value, caps? }`). -/
structure AppendReqMsg where
  value : List Nat
  caps : Option (List Nat)
deriving DecidableEq, Repr

def appendReqEncode (m : AppendReqMsg) : List Nat :=
  ceBytesEncode m.value ++ capsEncode m.caps

def appendReqDecode (l : List Nat) : Option AppendReqMsg :=
  match ceBytesDecode l with
  | none => none
  | some (value, rest) =>
    match capsDecode rest with
    | none => none
    | some (caps, _) => some ⟨value, caps⟩

/-- Scan range bounds; each bound is absent (`undefined` in the source) or
a byte string (JS truthiness makes even an empty `Uint8Array` count as
present, hence `Option` rather than emptiness). -/
structure RangeMsg where
  gte : Option (List Nat)
  gt : Option (List Nat)
  lte : Option (List Nat)
  lt : Option (List Nat)
deriving DecidableEq, Repr

/-- Scan request message on the sender (`prefix` is named `pfx` here
because `prefix` is a reserved token in Lean); an absent `range` object
behaves as all-absent bounds (`m?.range || {}`). -/
structure ScanReqMsg where
  pfx : Option (List Nat)
  reverse : Bool
  range : RangeMsg
  caps : Option (List Nat)
deriving DecidableEq, Repr

/-- Scan request message as produced by the decoder: `prefix` only present
when its flag was set, `range` only present when at least one bound
decoded. -/
structure ScanReqOut where
  pfx : Option (List Nat)
  reverse : Bool
  range : Option RangeMsg
  caps : Option (List Nat)
deriving DecidableEq, Repr

/-- JS truthiness of a possibly-absent byte string (`!!r.gte`): any
`Uint8Array`, including the empty one, is truthy. -/
def optFlag : Option (List Nat) → Bool
  | none => false
  | some _ => true

/-- `scanReq.encode`: prefix flag (+bytes when non-empty), reverse flag,
then each range bound's presence flag IMMEDIATELY FOLLOWED by its bytes,
then caps. -/
def scanReqEncode (m : ScanReqMsg) : List Nat :=
  let hasPrefix := match m.pfx with
    | none => false
    | some p => !p.isEmpty
  encodeBool hasPrefix
    ++ (if hasPrefix then ceBytesEncode (m.pfx.getD []) else [])
    ++ encodeBool m.reverse
    ++ encodeBool (optFlag m.range.gte)
    ++ (match m.range.gte with | some b => ceBytesEncode b | none => [])
    ++ encodeBool (optFlag m.range.gt)
    ++ (match m.range.gt with | some b => ceBytesEncode b | none => [])
    ++ encodeBool (optFlag m.range.lte)
    ++ (match m.range.lte with | some b => ceBytesEncode b | none => [])
    ++ encodeBool (optFlag m.range.lt)
    ++ (match m.range.lt with | some b => ceBytesEncode b | none => [])
    ++ capsEncode m.caps

/-- `scanReq.decode`: prefix flag (+bytes), reverse flag, then ALL FOUR
range presence flags read consecutively, and only afterwards the bounds'
bytes for the flags that were set; finally caps. (This is the order the
source decoder uses.) -/
def scanReqDecode (l : List Nat) : Option ScanReqOut :=
  match decodeBool l with
  | none => none
  | some (hasPrefix, r1) =>
    let step1 : Option (Option (List Nat) × List Nat) :=
      if hasPrefix then
        match ceBytesDecode r1 with
        | none => none
        | some (p, r) => some (some p, r)
      else some (none, r1)
    match step1 with
    | none => none
    | some (pfx, r2) =>
      match decodeBool r2 with
      | none => none
      | some (reverse, r3) =>
        match decodeBool r3 with
        | none => none
        | some (gp, r4) =>
          match decodeBool r4 with
          | none => none
          | some (gt, r5) =>
            match decodeBool r5 with
            | none => none
            | some (lp, r6) =>
              match decodeBool r6 with
              | none => none
              | some (lt, r7) =>
                let readOpt : Bool → List Nat →
                    Option (Option (List Nat) × List Nat) := fun flag r =>
                  if flag then
                    match ceBytesDecode r with
                    | none => none
                    | some (b, r') => some (some b, r')
                  else some (none, r)
                match readOpt gp r7 with
                | none => none
                | some (gteV, r8) =>
                  match readOpt gt r8 with
                  | none => none
                  | some (gtV, r9) =>
                    match readOpt lp r9 with
                    | none => none
                    | some (lteV, r10) =>
                      match readOpt lt r10 with
                      | none => none
                      | some (ltV, r11) =>
                        let range : Option RangeMsg :=
                          if gp || gt || lp || lt then
                            some ⟨gteV, gtV, lteV, ltV⟩
                          else none
                        match capsDecode r11 with
                        | none => none
                        | some (caps, _) =>
                          some ⟨pfx, reverse, range, caps⟩

/-! ## Result envelopes (`src/result/index.js`) and the RPC envelope codec

Code and message strings are modelled by their UTF-8 bytes. The closed
code set of `CODES` is the thirteen strings below. -/

/-- The closed set of error code strings (`CODES`), as byte strings. -/
def KNOWN_CODES : List (List Nat) :=
  [ascii "BadArg", ascii "CodecError", ascii "CASFailed",
   ascii "CapabilityDenied", ascii "Timeout", ascii "DriverError",
   ascii "CryptoError", ascii "NotAvailable", ascii "NotReady",
   ascii "PayloadTooLarge", ascii "Closed", ascii "Destroyed",
   ascii "Unknown"]

/-- `normalizeCode`: a known code string passes through, anything else maps
to `Unknown`. -/
def normalizeCode (code : List Nat) : List Nat :=
  if code ∈ KNOWN_CODES then code else ascii "Unknown"

/-- Wire-level envelope: success with optional value bytes and optional
meta key bytes, or failure with code and message (these are the only
fields `encodeEnvelope`/`decodeEnvelope` carry; `details`, `cause` and the
rest of the in-memory envelope are dropped on the wire). -/
inductive Envelope
  | okE (value : Option (List Nat)) (metaKey : Option (List Nat))
  | errE (code : List Nat) (message : List Nat)
deriving DecidableEq, Repr

/-- `encodeEnvelope` of the RPC module: ok flag; for success a has-value
flag, a u32-length-prefixed value block (empty block when absent), a
has-meta-key flag and a u32-length-prefixed key block; for failure a
u16-length-prefixed code (empty code falls back to `Unknown`) and a
u16-length-prefixed message. -/
def encodeEnvelope : Envelope → List Nat
  | .okE v mk =>
      encodeBool true
        ++ encodeBool v.isSome
        ++ (encodeU32LE (v.getD []).length ++ v.getD [])
        ++ encodeBool mk.isSome
        ++ (encodeU32LE (mk.getD []).length ++ mk.getD [])
  | .errE code msg =>
      let code' := if code.isEmpty then ascii "Unknown" else code
      encodeBool false
        ++ (encodeU16LE code'.length ++ code')
        ++ (encodeU16LE msg.length ++ msg)

/-- `decodeBytes` of the RPC module: u32 length then that many bytes
(`subarray` clamps, so a short tail yields a short block). -/
def decodeBytesBlock (l : List Nat) : Option (List Nat × List Nat) :=
  match decodeU32LE l with
  | none => none
  | some (len, rest) => some (rest.take len, rest.drop len)

/-- `decodeString` of the RPC module: u16 length then that many bytes. -/
def decodeStringBlock (l : List Nat) : Option (List Nat × List Nat) :=
  match decodeU16LE l with
  | none => none
  | some (len, rest) => some (rest.take len, rest.drop len)

/-- `decodeEnvelope`: inverse direction of `encodeEnvelope`; the failure
branch builds the envelope through `err(code, message)`, which normalises
the code. -/
def decodeEnvelope (l : List Nat) : Option Envelope :=
  match decodeBool l with
  | none => none
  | some (okFlag, r1) =>
    if okFlag then
      match decodeBool r1 with
      | none => none
      | some (hasValue, r2) =>
        match decodeBytesBlock r2 with
        | none => none
        | some (value, r3) =>
          match decodeBool r3 with
          | none => none
          | some (hasKey, r4) =>
            match decodeBytesBlock r4 with
            | none => none
            | some (key, _) =>
              some (.okE (if hasValue then some value else none)
                         (if hasKey then some key else none))
    else
      match decodeStringBlock r1 with
      | none => none
      | some (code, r2) =>
        match decodeStringBlock r2 with
        | none => none
        | some (msg, _) => some (.errE (normalizeCode code) msg)

/-- A value thrown by a JavaScript handler: an `Error`-like object with a
message and an optional `code` property, a non-`Error` value (stringified
by `String(e)`), or `null`/`undefined`. -/
inductive Thrown
  | errObj (message : List Nat) (code : Option (List Nat))
  | nonError (s : List Nat)
  | nullish
deriving DecidableEq, Repr

/-- `envelopeFromError` of the RPC module: the message is taken from the
error (or `String(e)`, or the fallback text for nullish values), and the
code is ALWAYS `Unknown` — the thrown value's own `code` is not consulted.
`err(CODES.Unknown, message)` normalises `Unknown` to itself. -/
def envelopeFromError : Thrown → Envelope
  | .errObj message _ => .errE (ascii "Unknown") message
  | .nonError s => .errE (ascii "Unknown") s
  | .nullish => .errE (ascii "Unknown") (ascii "Unknown error")

/-! ## RPC server (`serveStorePortOverPlex`)

The server is modelled per request frame: given the configured limits, the
current inflight count, which handler methods the port implements, and the
behaviour of the user handler (its outcome, and at which point — if any —
a cancel frame for this rid is observed), the model computes the response
frames written to the duplex. Frames are kept symbolic
(rid/mid/more/payload); their byte layout (`encResFrame`) is orthogonal to
the claims about them. -/

/-- A response frame as written by the server (`encResFrame` fields). -/
structure SFrame where
  rid : Nat
  mid : Nat
  more : Bool
  payload : List Nat
deriving DecidableEq, Repr

/-- Method ids (StorePort v1). -/
def MID_GET : Nat := 0
def MID_PUT : Nat := 1
def MID_DEL : Nat := 2
def MID_SCAN : Nat := 3
def MID_APPEND : Nat := 4

/-- `MID_NAME[mid] || mid` as used in interpolated diagnostics. -/
def midName (mid : Nat) : String :=
  if mid = MID_GET then "GET"
  else if mid = MID_PUT then "PUT"
  else if mid = MID_DEL then "DEL"
  else if mid = MID_SCAN then "SCAN"
  else if mid = MID_APPEND then "APPEND"
  else toString mid

/-- Default request payload cap (`DEFAULT_MAX_REQ_BYTES = 256 * 1024`). -/
def DEFAULT_MAX_REQ_BYTES : Nat := 256 * 1024

/-- Server-side configuration derived from the environment. -/
structure ServerCfg where
  maxReqBytes : Nat
  maxServerRoutes : Nat
deriving DecidableEq, Repr

/-- Which methods the user-supplied port implements. -/
structure PortSpec where
  hasGet : Bool
  hasPut : Bool
  hasDel : Bool
  hasAppend : Bool
  hasScan : Bool
deriving DecidableEq, Repr

def PortSpec.hasUnary (p : PortSpec) (mid : Nat) : Bool :=
  if mid = MID_GET then p.hasGet
  else if mid = MID_PUT then p.hasPut
  else if mid = MID_DEL then p.hasDel
  else if mid = MID_APPEND then p.hasAppend
  else false

/-- Behaviour of the async iterable returned by `port.scan`: the envelopes
it yields in order, then either clean completion or a thrown error. -/
structure ScanOutcome where
  yields : List Envelope
  thrown : Option Thrown
deriving DecidableEq, Repr

/-- What `port.scan(opts)` itself does: throw synchronously, return a
non-iterable, or return an iterable with the given behaviour. -/
inductive ScanStart
  | throws (e : Thrown)
  | notIterable
  | iter (sc : ScanOutcome)
deriving DecidableEq, Repr

/-- The user handler's behaviour for this request: the unary result (a
returned envelope, possibly `undefined`, or a thrown value) together with
whether a cancel frame for this rid was observed before the handler
completed; for scan, the start outcome and the number of envelopes the
server managed to send before a cancel was observed (`none` = no cancel). -/
structure ReqBehavior where
  unaryResult : Except Thrown (Option Envelope)
  unaryCancelled : Bool
  scanStart : ScanStart
  scanCancelAfter : Option Nat
deriving Repr

/-- `respondOnce`: a single terminal response frame carrying the envelope
(`env ?? ok()`). -/
def respondOnce (rid mid : Nat) (env : Envelope) : List SFrame :=
  [⟨rid, mid, false, encodeEnvelope env⟩]

/-- `handleUnary` after the inflight entry exists: await the handler; if a
cancel was observed meanwhile, send nothing; otherwise send one terminal
frame with the result envelope (`env ?? ok()`) or, when the handler threw,
with `envelopeFromError`. -/
def handleUnaryModel (cancelled : Bool) (outcome : Except Thrown (Option Envelope))
    (rid mid : Nat) : List SFrame :=
  match outcome with
  | .ok env =>
      if cancelled then []
      else respondOnce rid mid (env.getD (.okE none none))
  | .error e =>
      if cancelled then []
      else respondOnce rid mid (envelopeFromError e)

/-- `handleScan` over an iterable: stream each yielded envelope with
`more=1`, stopping as soon as a cancel is observed; when no cancel was
observed, finish with a terminal frame — empty payload on clean end,
`envelopeFromError` payload when the iterable threw. A cancelled scan
sends no terminal frame. -/
def handleScanModel (cancelAfter : Option Nat) (sc : ScanOutcome)
    (rid mid : Nat) : List SFrame :=
  let sent := match cancelAfter with
    | none => sc.yields
    | some k => sc.yields.take k
  let dataFrames := sent.map (fun env => SFrame.mk rid mid true (encodeEnvelope env))
  match cancelAfter with
  | some _ => dataFrames
  | none =>
    match sc.thrown with
    | none => dataFrames ++ [⟨rid, mid, false, []⟩]
    | some e => dataFrames ++ [⟨rid, mid, false, encodeEnvelope (envelopeFromError e)⟩]

/-- Whether `decReq[mid]` succeeds on the payload (an undefined decoder —
unknown mid — yields `{}` rather than a failure: `?.() ?? {}`). -/
def decodeReqOk (mid : Nat) (payload : List Nat) : Bool :=
  if mid = MID_GET then (keyReqDecode payload).isSome
  else if mid = MID_DEL then (keyReqDecode payload).isSome
  else if mid = MID_PUT then (putReqDecode payload).isSome
  else if mid = MID_SCAN then (scanReqDecode payload).isSome
  else if mid = MID_APPEND then (appendReqDecode payload).isSome
  else true

/-- Result of processing one request frame. -/
structure ServerStep where
  frames : List SFrame
  handlerInvoked : Bool
  destroyed : Bool
deriving DecidableEq, Repr

/-- `handleReq`: the complete branch structure of the server's request
path, in source order — payload size cap, payload decode, server route
limit (reply `NotReady` and destroy the duplex), scan dispatch (missing
handler, synchronous throw, non-iterable, streaming), unary dispatch
(unknown method, `handleUnary`). -/
def handleReqModel (cfg : ServerCfg) (inflightSize : Nat) (port : PortSpec)
    (beh : ReqBehavior) (rid mid : Nat) (payload : List Nat) : ServerStep :=
  if payload.length > cfg.maxReqBytes then
    { frames := respondOnce rid mid
        (.errE (ascii "PayloadTooLarge") (ascii "Request payload exceeds limit")),
      handlerInvoked := false, destroyed := false }
  else if ¬ decodeReqOk mid payload then
    { frames := respondOnce rid mid (.errE (ascii "Unknown") (ascii "Bad request payload")),
      handlerInvoked := false, destroyed := false }
  else if cfg.maxServerRoutes > 0 ∧ inflightSize ≥ cfg.maxServerRoutes then
    { frames := respondOnce rid mid
        (.errE (ascii "NotReady") (ascii "Too many in-flight requests")),
      handlerInvoked := false, destroyed := true }
  else if mid = MID_SCAN then
    if ¬ port.hasScan then
      { frames := respondOnce rid mid (.errE (ascii "Unknown") (ascii "Scan not supported")),
        handlerInvoked := false, destroyed := false }
    else
      match beh.scanStart with
      | .throws e =>
          { frames := respondOnce rid mid (envelopeFromError e),
            handlerInvoked := true, destroyed := false }
      | .notIterable =>
          { frames := respondOnce rid mid
              (.errE (ascii "Unknown") (ascii "scan() must return AsyncIterable")),
            handlerInvoked := true, destroyed := false }
      | .iter sc =>
          { frames := handleScanModel beh.scanCancelAfter sc rid mid,
            handlerInvoked := true, destroyed := false }
  else if ¬ port.hasUnary mid then
    { frames := respondOnce rid mid (.errE (ascii "Unknown") (ascii "Unknown method")),
      handlerInvoked := false, destroyed := false }
  else
    { frames := handleUnaryModel beh.unaryCancelled beh.unaryResult rid mid,
      handlerInvoked := true, destroyed := false }

/-- Number of terminal (`more=0`) frames in a frame list. -/
def terminalCount (frames : List SFrame) : Nat :=
  (frames.filter (fun f => f.more = false)).length

/-! ## RPC client proxy (`createStorePortProxyOverPlex`)

The client is a state machine over its route table. Observable effects
(cancel frames written to the duplex, unary promise resolutions and
rejections, stream `fail`/`end` notifications delivered to iterators) are
recorded in lists on the state. Asynchronous timers are modelled by
passing the current time `now` to the transition that a timer firing
triggers; `ttl` is `ORPHAN_TTL_MS` (default 2000). JavaScript `Map`s keyed
by rid are modelled as association lists where `set` first erases any
entry with the same key. -/

/-- Association list lookup (`Map.get`). -/
def lookupAssoc {α : Type} : List (Nat × α) → Nat → Option α
  | [], _ => none
  | p :: rest, k => if p.1 = k then some p.2 else lookupAssoc rest k

/-- Association list erase (`Map.delete`). -/
def eraseAssoc {α : Type} (l : List (Nat × α)) (k : Nat) : List (Nat × α) :=
  l.filter (fun p => p.1 ≠ k)

/-- Association list set (`Map.set`). -/
def setAssoc {α : Type} (l : List (Nat × α)) (k : Nat) (v : α) : List (Nat × α) :=
  eraseAssoc l k ++ [(k, v)]

/-- Route lifecycle state. -/
inductive RState
  | active
  | cancelled
  | closed
deriving DecidableEq, Repr

/-- Route type. -/
inductive RType
  | unary
  | stream
deriving DecidableEq, Repr

/-- A pending call's client-side route. Diagnostic-only fields (meta,
stall/pending timers, cleanup closures) are omitted; `timeoutMs = 0`
means no hard timeout. -/
structure Route where
  rid : Nat
  mid : Nat
  rtype : RType
  state : RState
  cancelSent : Bool
  result : Envelope
  queue : List Envelope
  done : Bool
  error : Option (List Nat)
  timeoutMs : Nat
deriving DecidableEq, Repr

/-- The error message of the synthetic stream-cancel error. -/
def streamCancelledMsg : List Nat := ascii "Stream cancelled"

/-- `route.push(env)`: only an active route enqueues. -/
def pushR (env : Envelope) (r : Route) : Route :=
  if r.state = .active then { r with queue := r.queue ++ [env] } else r

/-- `route.end()`: mark done (idempotent). -/
def endR (r : Route) : Route :=
  if r.done then r else { r with done := true }

/-- `route.fail(error)`: record the first error only. -/
def failR (e : List Nat) (r : Route) : Route :=
  if r.error.isSome then r else { r with error := some e }

/-- `sendCancel(route)`: at most one cancel frame per route; the boolean
reports whether a frame was written this time. -/
def sendCancelR (r : Route) : Route × Bool :=
  if r.cancelSent then (r, false) else ({ r with cancelSent := true }, true)

/-- A stream route's `route.cancel()`: only from `active`; moves to
`cancelled`, sends the cancel frame, fails the stream with the synthetic
stream-cancelled error. -/
def cancelStreamR (r : Route) : Route × Bool :=
  if r.state ≠ .active then (r, false)
  else
    let p := sendCancelR { r with state := .cancelled }
    (failR streamCancelledMsg p.1, p.2)

/-- The route-local part of `closeRoute(route, error?)`: mark closed and
deliver the stream end/failure. (Map bookkeeping and unary promise
settlement live in `closeRouteC`.) -/
def closeRouteR (e : Option (List Nat)) (r : Route) : Route :=
  if r.state = .closed then r
  else
    let r1 := { r with state := RState.closed }
    match r.rtype with
    | .unary => r1
    | .stream =>
      match e with
      | some m => failR m r1
      | none => endR r1

/-- What one `iterator.next()` call observes when it does not have to
wait: a buffered envelope, the first queued error (cleared after being
thrown once), end of stream, or — when none of those apply on a live
route — it would block on the waiter list. -/
inductive NextRes
  | yielded (env : Envelope)
  | thrown (e : List Nat)
  | finished
  | blocked
deriving DecidableEq, Repr

/-- `iterator.next()`: buffered envelopes are served FIRST, before the
error slot and before the done/closed checks. -/
def nextR (r : Route) : NextRes × Route :=
  match r.queue with
  | env :: rest => (.yielded env, { r with queue := rest })
  | [] =>
    match r.error with
    | some e => (.thrown e, { r with error := none })
    | none =>
      if r.done ∨ r.state = .closed then (.finished, r) else (.blocked, r)

/-- `iterator.return()`: `route.cancel()` then `closeRoute(route)`; the
boolean reports whether a cancel frame was written. -/
def iterReturnR (r : Route) : Route × Bool :=
  let p := cancelStreamR r
  (closeRouteR none p.1, p.2)

/-- `n` successive `next()` observations. -/
def consumeN : Nat → Route → List NextRes
  | 0, _ => []
  | n + 1, r =>
    let s := nextR r
    s.1 :: consumeN n s.2

/-- Client proxy state: the route table, the recently-closed map
(rid → expiry timestamp), and the observable effect logs. -/
structure Client where
  routes : List (Nat × Route)
  recentlyClosed : List (Nat × Nat)
  sentCancels : List (Nat × Nat)
  resolvedU : List (Nat × Envelope)
  rejectedU : List (Nat × List Nat)
  streamNotices : List (Nat × Option (List Nat))
deriving DecidableEq, Repr

/-- `routes.get(rid)`. -/
def lookupRoute (c : Client) (rid : Nat) : Option Route :=
  lookupAssoc c.routes rid

/-- `closeRoute(route, error?)` at the client level: skip when already
closed; otherwise apply the route-local close, remember the rid in the
recently-closed map for `ttl` ms (`trackClosed`, skipped when `ttl = 0`),
delete the route, and settle the caller — a unary promise resolves with
the stored result envelope or rejects with the error; a stream delivers
the end/failure notification to its iterator. -/
def closeRouteC (c : Client) (now ttl rid : Nat) (e : Option (List Nat)) : Client :=
  match lookupRoute c rid with
  | none => c
  | some r =>
    if r.state = .closed then c
    else
      let rc := if ttl > 0 then setAssoc c.recentlyClosed rid (now + ttl)
                else c.recentlyClosed
      let base := { c with routes := eraseAssoc c.routes rid, recentlyClosed := rc }
      match r.rtype with
      | .unary =>
        match e with
        | some m => { base with rejectedU := c.rejectedU ++ [(rid, m)] }
        | none => { base with resolvedU := c.resolvedU ++ [(rid, r.result)] }
      | .stream => { base with streamNotices := c.streamNotices ++ [(rid, e)] }

/-- `completeWithEnvelope(route, env)`: only on an active route; a unary
route stores the envelope in its result slot, a stream route pushes it and
marks done; then the route is closed without error. -/
def completeWithEnvelopeC (c : Client) (now ttl rid : Nat) (env : Envelope) : Client :=
  match lookupRoute c rid with
  | none => c
  | some r =>
    if r.state ≠ .active then c
    else
      let r1 := match r.rtype with
        | .unary => { r with result := env }
        | .stream => { pushR env r with done := true }
      closeRouteC { c with routes := setAssoc c.routes rid r1 } now ttl rid none

/-- `timeoutEnvelope(ms)`. -/
def timeoutEnvelope (ms : Nat) : Envelope :=
  if ms > 0 then .errE (ascii "Timeout") (ascii ("Request timed out after " ++ toString ms ++ "ms"))
  else .errE (ascii "Timeout") (ascii "Request timed out")

/-- The timeout timer callback of `scheduleRouteTimeout` firing at time
`now` for route `rid`: a no-op unless the route is still active; otherwise
mark the guard, send a cancel frame (recorded in `sentCancels` when
actually written) and complete the route with the timeout envelope. -/
def timeoutFireC (c : Client) (now ttl rid : Nat) : Client :=
  match lookupRoute c rid with
  | none => c
  | some r =>
    if r.state ≠ .active then c
    else
      let p := sendCancelR r
      let c1 := { c with
        routes := setAssoc c.routes rid p.1,
        sentCancels := if p.2 then c.sentCancels ++ [(rid, r.mid)] else c.sentCancels }
      completeWithEnvelopeC c1 now ttl rid (timeoutEnvelope r.timeoutMs)

/-- A response frame as decoded by the client (`decFrame` on a `res`
frame). -/
structure RFrame where
  rid : Nat
  mid : Nat
  more : Bool
  payload : List Nat
deriving DecidableEq, Repr

/-- What the caller observes from one incoming frame. -/
inductive DataEffect
  | ignoredDebug
  | ignoredWarn
  | processed
deriving DecidableEq, Repr

/-- The client's `onData` handler for a response frame arriving at time
`now`: frames without a route are ignored (at debug level when the rid is
still within the recently-closed TTL, else the stale entry is dropped and
a warning is logged); a cancelled route swallows payloads and closes
silently on the terminal frame; otherwise the payload (when present)
decodes to an envelope that updates the unary result slot or feeds the
stream queue (a decode failure closes the route with an error), and a
terminal frame closes the route. -/
def onDataC (c : Client) (now ttl : Nat) (f : RFrame) : Client × DataEffect :=
  match lookupRoute c f.rid with
  | none =>
    match lookupAssoc c.recentlyClosed f.rid with
    | some expiresAt =>
      if ttl > 0 ∧ expiresAt ≥ now then (c, .ignoredDebug)
      else ({ c with recentlyClosed := eraseAssoc c.recentlyClosed f.rid }, .ignoredWarn)
    | none => (c, .ignoredWarn)
  | some r =>
    if r.state = .cancelled then
      if ¬ f.more then (closeRouteC c now ttl f.rid none, .processed)
      else (c, .processed)
    else
      if f.payload.isEmpty then
        if ¬ f.more then (closeRouteC c now ttl f.rid none, .processed)
        else (c, .processed)
      else
        match decodeEnvelope f.payload with
        | none =>
          (closeRouteC c now ttl f.rid (some (ascii "Envelope decode failed")), .processed)
        | some env =>
          let r1 := match r.rtype with
            | .unary => { r with result := env }
            | .stream => pushR env r
          let c1 := { c with routes := setAssoc c.routes f.rid r1 }
          if ¬ f.more then (closeRouteC c1 now ttl f.rid none, .processed)
          else (c1, .processed)

/-- A JavaScript `Error` with an optional `code` property, as thrown by
the client's synchronous guard paths. -/
structure JsErr where
  code : Option (List Nat)
  message : List Nat
deriving DecidableEq, Repr

/-- Outcome of `startRoute` up to the point the request frame is written:
either a synchronously thrown error (route-limit or payload-limit), or
success with the request frame written; `destroyedDuplex` records the
route-limit path's hard reset. -/
structure StartResult where
  thrown : Option JsErr
  frameWritten : Bool
  routeAdded : Bool
  destroyedDuplex : Bool
deriving DecidableEq, Repr

/-- `enforceRequestLimit`'s error for an oversized encoded payload. -/
def payloadTooLargeErr (len maxReq mid : Nat) : JsErr :=
  ⟨some (ascii "PayloadTooLarge"),
   ascii ("Request payload exceeds limit (" ++ toString len ++ " > "
          ++ toString maxReq ++ ") for " ++ midName mid)⟩

/-- `startRoute`, up to writing the request frame, given the current route
count, the configured limits and the encoded payload length: the client
route limit is checked first (throw `NotReady` and destroy the duplex),
then the encoded payload is checked against the byte cap
(`enforceRequestLimit` throws `PayloadTooLarge` before any route is
inserted or any frame written); otherwise the route is inserted and the
request frame written. -/
def startRouteModel (routesCount maxClientRoutes : Nat) (mid payloadLen maxReq : Nat) :
    StartResult :=
  if maxClientRoutes > 0 ∧ routesCount ≥ maxClientRoutes then
    { thrown := some ⟨some (ascii "NotReady"), ascii "Too many in-flight Plex client routes"⟩,
      frameWritten := false, routeAdded := false, destroyedDuplex := true }
  else if payloadLen > maxReq then
    { thrown := some (payloadTooLargeErr payloadLen maxReq mid),
      frameWritten := false, routeAdded := false, destroyedDuplex := false }
  else
    { thrown := none, frameWritten := true, routeAdded := true, destroyedDuplex := false }

/-- `flushAllClient(error)`: close every pending route with the error,
then clear the table. -/
def flushAllC (c : Client) (now ttl : Nat) (e : List Nat) : Client :=
  let c1 := c.routes.foldl (fun acc p => closeRouteC acc now ttl p.1 (some e)) c
  { c1 with routes := [] }

/-- The proxy's `close()`: destroy the duplex (best-effort) — which makes
the duplex emit `close`, flushing every pending route with a
connection-closed error — and resolve with `ok()`. -/
def proxyCloseC (c : Client) (now ttl : Nat) : Client × Envelope :=
  (flushAllC c now ttl (ascii "Connection closed"), .okE none none)

/-- The proxy's `destroy()`: destroy the duplex (best-effort) — which
makes the duplex emit `close`, flushing every pending route with a
connection-closed error — and resolve with `ok()`. -/
def proxyDestroyC (c : Client) (now ttl : Nat) : Client × Envelope :=
  (flushAllC c now ttl (ascii "Connection closed"), .okE none none)

/-! ## Peer pool selection (`src/pool.js`)

`hashKey` is the exact JavaScript arithmetic: `h << 5` coerces `h` to a
signed 32-bit integer before shifting (discarding overflow into the
int32 range), while the additions `+ h + byte` are exact double
arithmetic; the final `>>> 0` is ToUint32. `djb2Spec` is the spec's
wording — `h := h*33 + byte, modulo 2^32` — and the two are proved equal
below. -/

/-- ECMAScript ToInt32 of an integer. -/
def toInt32 (n : Int) : Int :=
  let m := n % 4294967296
  if m < 2147483648 then m else m - 4294967296

/-- ECMAScript ToUint32 of an integer (`>>> 0`). -/
def toUint32 (n : Int) : Nat := (n % 4294967296).toNat

/-- One step of the source's loop: `h = ((h << 5) + h) + byte`. -/
def hashStep (h : Int) (b : Nat) : Int :=
  toInt32 (toInt32 h * 32) + h + b

/-- `hashKey(keyBytes)` of `src/pool.js` (djb2 with JS 32-bit shifts). -/
def hashKey (keyBytes : List Nat) : Nat :=
  toUint32 (keyBytes.foldl hashStep 5381)

/-- Modelled from the spec: "hash it (djb2, unsigned 32-bit)" with
"h starts at 5381; h := h*33 + byte, modulo 2^32". -/
def djb2Spec (keyBytes : List Nat) : Nat :=
  keyBytes.foldl (fun h b => (h * 33 + b) % 4294967296) 5381

/-- `pickRoundRobin(list)`: index `rr % len`, post-increment `rr`, then
clamp the counter when it exceeds 1e9. Returns the pick and the new
counter. -/
def pickRoundRobin {α : Type} (list : List α) (rr : Nat) : Option α × Nat :=
  if list.isEmpty then (none, rr)
  else
    let p := list.get? (rr % list.length)
    let rr1 := rr + 1
    (p, if rr1 > 1000000000 then rr1 % list.length else rr1)

/-- `pickSticky(list, keyBytes)`: empty list yields nothing; a missing or
empty key falls back to round-robin; otherwise the djb2 hash of the key
modulo the eligible-list length picks the peer (the counter is untouched). -/
def pickSticky {α : Type} (list : List α) (keyBytes : Option (List Nat)) (rr : Nat) :
    Option α × Nat :=
  if list.isEmpty then (none, rr)
  else
    match keyBytes with
    | none => pickRoundRobin list rr
    | some bs =>
      if bs.isEmpty then pickRoundRobin list rr
      else (list.get? (hashKey bs % list.length), rr)

/-- A value returned by the caller's `keyFn`: absent/falsy, a byte
string, or a JavaScript string. -/
inductive KeyLike
  | absent
  | bytes (bs : List Nat)
  | str (s : String)
deriving Repr

/-- `normalizeKey(k)`: falsy values (including the empty string) give no
key; byte strings pass through unchanged (even when empty); strings are
UTF-8 encoded. -/
def normalizeKey : KeyLike → Option (List Nat)
  | .absent => none
  | .bytes bs => some bs
  | .str s => if s = "" then none else some (utf8Bytes s)

/-! ## Channel helper (`src/channel.js`) -/

/-- `zeroBuff = b4a.alloc(0)`. -/
def zeroBuff : List Nat := []

/-- The state `openPlexChannel` consults: whether a channel for
`(id, protocol)` is already open on the mux, whether it already exists,
and the handshake configuration (`handshakeMessage !== undefined` is
modelled by `Option`; `handshakeEncoding` truthiness by a `Bool`). -/
structure ChanCfg where
  chanExists : Bool
  chanOpen : Bool
  handshakeMessage : Option (List Nat)
  handshakeEncoding : Bool
deriving DecidableEq, Repr

/-- Result of `openPlexChannel(cfg)`: whether the channel exists
afterwards, and — when `plexChannel.open(hs)` was called — the payload it
was called with (`some none` = open with no payload (`undefined`),
`some (some bs)` = open with the byte payload `bs`; `none` = `open` was
not called because the channel was already open). -/
structure OpenResult where
  chanExists : Bool
  openedWith : Option (Option (List Nat))
deriving DecidableEq, Repr

/-- `openPlexChannel(cfg)`: if the channel is already open, return at
once; otherwise ensure the channel exists, then open with the
`handshakeMessage` when provided, with no payload when a
`handshakeEncoding` is set but no message given, and with the zero-length
buffer otherwise. -/
def openPlexChannelModel (cfg : ChanCfg) : OpenResult :=
  if cfg.chanOpen then { chanExists := cfg.chanExists, openedWith := none }
  else
    let hs : Option (List Nat) :=
      match cfg.handshakeMessage with
      | some m => some m
      | none => if cfg.handshakeEncoding then none else some zeroBuff
    { chanExists := true, openedWith := some hs }

/-! ### Round-trip lemmas for the primitives -/

theorem decodeU16LE_encode (n : Nat) (r : List Nat) (h : n ≤ 0xffff) :
    decodeU16LE (encodeU16LE n ++ r) = some (n, r) := by
  simp only [encodeU16LE, decodeU16LE, List.cons_append, List.nil_append,
    Option.some.injEq, Prod.mk.injEq, and_true]
  omega

theorem decodeU32LE_encode (n : Nat) (r : List Nat) (h : n ≤ 0xffffffff) :
    decodeU32LE (encodeU32LE n ++ r) = some (n, r) := by
  simp only [encodeU32LE, decodeU32LE, List.cons_append, List.nil_append,
    Option.some.injEq, Prod.mk.injEq, and_true]
  omega

theorem decodeU64LE_encode (n : Nat) (r : List Nat) (h : n < 2 ^ 64) :
    decodeU64LE (encodeU64LE n ++ r) = some (n, r) := by
  simp only [encodeU64LE, decodeU64LE, List.cons_append, List.nil_append,
    Option.some.injEq, Prod.mk.injEq, and_true]
  omega

theorem ceUintDecode_encode (n : Nat) (r : List Nat) (h : n < 2 ^ 64) :
    ceUintDecode (ceUintEncode n ++ r) = some (n, r) := by
  unfold ceUintEncode
  by_cases h1 : n ≤ 0xfc
  · simp [h1, ceUintDecode]
  · by_cases h2 : n ≤ 0xffff
    · simp only [h1, h2, if_true, if_false, List.cons_append, ceUintDecode]
      exact decodeU16LE_encode n r h2
    · by_cases h3 : n ≤ 0xffffffff
      · simp only [h1, h2, h3, if_true, if_false, List.cons_append, ceUintDecode]
        exact decodeU32LE_encode n r h3
      · simp only [h1, h2, h3, if_false, List.cons_append, ceUintDecode]
        exact decodeU64LE_encode n r h

theorem ceBytesDecode_encode (bs : List Nat) (r : List Nat)
    (h : bs.length < 2 ^ 64) :
    ceBytesDecode (ceBytesEncode bs ++ r) = some (bs, r) := by
  unfold ceBytesEncode ceBytesDecode
  rw [List.append_assoc, ceUintDecode_encode bs.length (bs ++ r) h]
  simp [List.take_left, List.drop_left]

theorem decodeBool_encode (b : Bool) (r : List Nat) :
    decodeBool (encodeBool b ++ r) = some (b, r) := by
  cases b <;> simp [encodeBool, decodeBool]

/-! ## Helper lemmas about server frames -/

theorem terminalCount_respondOnce (rid mid : Nat) (env : Envelope) :
    terminalCount (respondOnce rid mid env) = 1 := by
  simp [terminalCount, respondOnce]

theorem terminalCount_dataFrames (rid mid : Nat) (l : List Envelope) :
    terminalCount (l.map (fun env => SFrame.mk rid mid true (encodeEnvelope env))) = 0 := by
  induction l with
  | nil => simp [terminalCount]
  | cons hd tl ih => simp [terminalCount, List.filter, ih]

theorem terminalCount_append (l1 l2 : List SFrame) :
    terminalCount (l1 ++ l2) = terminalCount l1 + terminalCount l2 := by
  simp [terminalCount, List.filter_append]

theorem terminalCount_nil : terminalCount [] = 0 := rfl

theorem terminalCount_handleUnary (cancelled : Bool)
    (outcome : Except Thrown (Option Envelope)) (rid mid : Nat) :
    terminalCount (handleUnaryModel cancelled outcome rid mid) ≤ 1 := by
  unfold handleUnaryModel
  cases outcome <;> cases cancelled <;>
    simp [terminalCount_respondOnce, terminalCount_nil]

theorem terminalCount_handleScan (cancelAfter : Option Nat) (sc : ScanOutcome)
    (rid mid : Nat) :
    terminalCount (handleScanModel cancelAfter sc rid mid) ≤ 1 := by
  unfold handleScanModel
  cases cancelAfter with
  | some k =>
    exact le_trans (terminalCount_dataFrames rid mid (sc.yields.take k)).le (Nat.zero_le 1)
  | none =>
    cases sc.thrown with
    | none =>
      rw [terminalCount_append, terminalCount_dataFrames]
      simp [terminalCount]
    | some e =>
      rw [terminalCount_append, terminalCount_dataFrames]
      simp [terminalCount]

/-! ## Helper lemmas about association lists and routes -/

theorem lookupAssoc_eraseAssoc_self {α : Type} (l : List (Nat × α)) (k : Nat) :
    lookupAssoc (eraseAssoc l k) k = none := by
  induction l with
  | nil => rfl
  | cons hd tl ih =>
    by_cases h : hd.1 = k
    · simpa [eraseAssoc, List.filter_cons, h] using ih
    · simpa [eraseAssoc, lookupAssoc, List.filter_cons, h] using ih

theorem lookupAssoc_setAssoc_self {α : Type} (l : List (Nat × α)) (k : Nat) (v : α) :
    lookupAssoc (setAssoc l k v) k = some v := by
  unfold setAssoc
  induction l with
  | nil => simp [eraseAssoc, lookupAssoc]
  | cons hd tl ih =>
    by_cases h : hd.1 = k
    · simpa [eraseAssoc, List.filter_cons, h] using ih
    · simpa [eraseAssoc, lookupAssoc, List.filter_cons, h] using ih

theorem lookupAssoc_eraseAssoc_ne {α : Type} (l : List (Nat × α)) (k k' : Nat)
    (h : k ≠ k') :
    lookupAssoc (eraseAssoc l k') k = lookupAssoc l k := by
  induction l with
  | nil => rfl
  | cons hd tl ih =>
    have hne : ¬ k' = k := fun he => h he.symm
    by_cases hh : hd.1 = k'
    · have hk : ¬ hd.1 = k := by rw [hh]; exact hne
      simpa [eraseAssoc, lookupAssoc, List.filter_cons, hh, hk, hne] using ih
    · by_cases hk : hd.1 = k
      · simp [eraseAssoc, lookupAssoc, List.filter_cons, hh, hk, h]
      · simpa [eraseAssoc, lookupAssoc, List.filter_cons, hh, hk, h] using ih

/-- Repeated `next()` on a closed route with a queued error drains the
queue in order, then throws the error once, then reports done. -/
theorem consumeN_closed_drain (q : List Envelope) (e : List Nat) (r : Route)
    (h : r.state = .closed) :
    consumeN (q.length + 2) { r with queue := q, error := some e }
      = q.map NextRes.yielded ++ [NextRes.thrown e, NextRes.finished] := by
  induction q generalizing r with
  | nil => simp [consumeN, nextR, h]
  | cons hd tl ih =>
    simp only [consumeN, nextR, List.length_cons, List.map_cons, List.cons_append]
    exact congrArg (NextRes.yielded hd :: ·) (ih r h)

/-- Under the preconditions of `iterReturnR` on an active route with no
queued error, the resulting route is fully determined. -/
theorem iterReturnR_shape (r : Route) (ha : r.state = .active) (he : r.error = none)
    (hr : r.rtype = .stream) :
    (iterReturnR r).1 =
      { r with state := .closed, cancelSent := true,
               error := some streamCancelledMsg, done := true }
    ∧ (iterReturnR r).2 = !r.cancelSent := by
  cases hcs : r.cancelSent <;> cases hd : r.done <;>
    simp [iterReturnR, cancelStreamR, sendCancelR, failR, closeRouteR, endR,
      ha, he, hr, hcs, hd]

theorem decodeBytesBlock_encode (bs r : List Nat) (h : bs.length ≤ 0xffffffff) :
    decodeBytesBlock (encodeU32LE bs.length ++ (bs ++ r)) = some (bs, r) := by
  unfold decodeBytesBlock
  rw [decodeU32LE_encode bs.length (bs ++ r) h]
  simp [List.take_left, List.drop_left]

theorem decodeStringBlock_encode (s r : List Nat) (h : s.length ≤ 0xffff) :
    decodeStringBlock (encodeU16LE s.length ++ (s ++ r)) = some (s, r) := by
  unfold decodeStringBlock
  rw [decodeU16LE_encode s.length (s ++ r) h]
  simp [List.take_left, List.drop_left]

theorem decodeBytesBlock_encode_self (bs : List Nat) (h : bs.length ≤ 0xffffffff) :
    decodeBytesBlock (encodeU32LE bs.length ++ bs) = some (bs, []) := by
  have := decodeBytesBlock_encode bs [] h
  simpa using this

theorem decodeBytesBlock_encode_zero (r : List Nat) :
    decodeBytesBlock (encodeU32LE 0 ++ r) = some ([], r) := by
  have := decodeBytesBlock_encode [] r (by simp)
  simpa using this

theorem decodeBytesBlock_encode_zero_self :
    decodeBytesBlock (encodeU32LE 0) = some ([], []) := by
  have := decodeBytesBlock_encode [] [] (by simp)
  simpa using this

theorem decodeStringBlock_encode_self (s : List Nat) (h : s.length ≤ 0xffff) :
    decodeStringBlock (encodeU16LE s.length ++ s) = some (s, []) := by
  have := decodeStringBlock_encode s [] h
  simpa using this

theorem decodeStringBlock_encode_zero (r : List Nat) :
    decodeStringBlock (encodeU16LE 0 ++ r) = some ([], r) := by
  have := decodeStringBlock_encode [] r (by simp)
  simpa using this

theorem decodeStringBlock_encode_zero_self :
    decodeStringBlock (encodeU16LE 0) = some ([], []) := by
  have := decodeStringBlock_encode [] [] (by simp)
  simpa using this

/-- Every code string in the closed set is non-empty and shorter than the
u16 length-prefix bound. -/
theorem known_code_facts : ∀ code ∈ KNOWN_CODES, code ≠ [] ∧ code.length ≤ 0xffff := by
  decide

/-- Shape of the client state after the timeout timer fires on an active,
unary route that has not yet sent a cancel frame. -/
theorem timeoutFireC_shape (c : Client) (r : Route) (now ttl rid : Nat)
    (hr : lookupRoute c rid = some r) (ha : r.state = .active)
    (ht : r.rtype = .unary) (hcs : r.cancelSent = false) (httl : 0 < ttl) :
    timeoutFireC c now ttl rid =
      { routes := eraseAssoc (setAssoc (setAssoc c.routes rid { r with cancelSent := true })
          rid { r with cancelSent := true, result := timeoutEnvelope r.timeoutMs }) rid,
        recentlyClosed := setAssoc c.recentlyClosed rid (now + ttl),
        sentCancels := c.sentCancels ++ [(rid, r.mid)],
        resolvedU := c.resolvedU ++ [(rid, timeoutEnvelope r.timeoutMs)],
        rejectedU := c.rejectedU,
        streamNotices := c.streamNotices } := by
  have hr2 : lookupAssoc c.routes rid = some r := hr
  simp [timeoutFireC, completeWithEnvelopeC, closeRouteC, lookupRoute, hr2,
    lookupAssoc_setAssoc_self, ha, ht, hcs, sendCancelR, httl]

/-- One hash step is congruent to `33*h + b` modulo 2^32, despite the
intermediate signed 32-bit coercions of the JavaScript shift. -/
theorem toInt32_eq_ite (n : Int) :
    toInt32 n = if n % 4294967296 < 2147483648 then n % 4294967296
                else n % 4294967296 - 4294967296 := rfl

theorem toInt32_modEq (n : Int) : toInt32 n ≡ n [ZMOD 4294967296] := by
  show toInt32 n % 4294967296 = n % 4294967296
  rw [toInt32_eq_ite]
  split_ifs with h1
  · exact Int.emod_emod_of_dvd n dvd_rfl
  · rw [Int.sub_emod, Int.emod_self]
    simp [Int.emod_emod_of_dvd]

theorem hashStep_emod (h : Int) (b : Nat) :
    hashStep h b % 4294967296 = (33 * h + b) % 4294967296 := by
  have h1 : toInt32 (toInt32 h * 32) ≡ h * 32 [ZMOD 4294967296] :=
    (toInt32_modEq _).trans ((toInt32_modEq h).mul_right 32)
  have h2 : hashStep h b ≡ 33 * h + b [ZMOD 4294967296] := by
    unfold hashStep
    have he : (33 * h + (b : Int)) = h * 32 + h + b := by ring
    rw [he]
    exact (h1.add_right h).add_right b
  exact h2

/-- Folding the JavaScript hash step tracks the spec's `h*33 + b mod 2^32`
fold. -/
theorem hashFold_spec (bytes : List Nat) :
    ∀ (hjs : Int) (hspec : Nat), hspec < 4294967296 →
      hjs % 4294967296 = (hspec : Int) →
      (bytes.foldl hashStep hjs) % 4294967296
        = ((bytes.foldl (fun h b => (h * 33 + b) % 4294967296) hspec : Nat) : Int) := by
  induction bytes with
  | nil =>
    intro hjs hspec hlt heq
    simpa using heq
  | cons b rest ih =>
    intro hjs hspec hlt heq
    simp only [List.foldl_cons]
    apply ih
    · exact Nat.mod_lt _ (by norm_num)
    · have h1 : hjs ≡ (hspec : Int) [ZMOD 4294967296] := by
        show hjs % 4294967296 = (hspec : Int) % 4294967296
        omega
      have h3 : (33 * hjs + (b : Int)) ≡ (33 * (hspec : Int) + b) [ZMOD 4294967296] :=
        (h1.mul_left 33).add_right (b : Int)
      have h5 : hashStep hjs b ≡ (33 * (hspec : Int) + b) [ZMOD 4294967296] :=
        Int.ModEq.trans (hashStep_emod hjs b) h3
      have h6 : hashStep hjs b % 4294967296
          = (33 * (hspec : Int) + b) % 4294967296 := h5
      omega

/-- `hashKey` of `src/pool.js` computes exactly the spec's unsigned 32-bit
djb2 hash. -/
theorem hashKey_eq_djb2Spec (bytes : List Nat) : hashKey bytes = djb2Spec bytes := by
  unfold hashKey djb2Spec toUint32
  have h5381 : ((5381 : Int)) % 4294967296 = ((5381 : Nat) : Int) := by decide
  have := hashFold_spec bytes 5381 5381 (by norm_num) h5381
  rw [this]
  simp

theorem closeRouteC_lookup_ne (c : Client) (now ttl rid rid' : Nat)
    (e : Option (List Nat)) (h : rid ≠ rid') :
    lookupRoute (closeRouteC c now ttl rid' e) rid = lookupRoute c rid := by
  unfold closeRouteC
  cases hlr : lookupRoute c rid' with
  | none => rfl
  | some r =>
    by_cases hcl : r.state = .closed
    · simp [hcl]
    · cases hrt : r.rtype <;> cases e <;>
        simp [hcl, hrt, lookupRoute, lookupAssoc_eraseAssoc_ne _ _ _ h]

theorem closeRouteC_rejected_mem (c : Client) (now ttl rid : Nat)
    (e : Option (List Nat)) (x : Nat × List Nat) (hx : x ∈ c.rejectedU) :
    x ∈ (closeRouteC c now ttl rid e).rejectedU := by
  unfold closeRouteC
  cases hlr : lookupRoute c rid with
  | none => exact hx
  | some r =>
    by_cases hcl : r.state = .closed
    · simpa [hcl] using hx
    · cases hrt : r.rtype <;> cases e <;> simp [hcl, hrt, hx]

theorem closeRouteC_unary_rejects (c : Client) (now ttl rid : Nat) (r : Route)
    (e : List Nat) (hr : lookupRoute c rid = some r) (hcl : r.state ≠ .closed)
    (hrt : r.rtype = .unary) :
    (closeRouteC c now ttl rid (some e)).rejectedU = c.rejectedU ++ [(rid, e)] := by
  unfold closeRouteC
  rw [hr]
  simp [hcl, hrt]

theorem mem_lookupAssoc {α : Type} (l : List (Nat × α)) (k : Nat) (v : α)
    (hmem : (k, v) ∈ l) (hnd : (l.map Prod.fst).Nodup) :
    lookupAssoc l k = some v := by
  induction l with
  | nil => cases hmem
  | cons hd tl ih =>
    simp only [List.map_cons, List.nodup_cons] at hnd
    rcases List.mem_cons.mp hmem with heq | htl
    · rw [← heq]
      simp [lookupAssoc]
    · have hk : hd.1 ≠ k := by
        intro hcontra
        have hin : k ∈ tl.map Prod.fst := List.mem_map.mpr ⟨(k, v), htl, rfl⟩
        exact hnd.1 (hcontra ▸ hin)
      simp only [lookupAssoc, if_neg hk]
      exact ih htl hnd.2

theorem flushFold_rejected_mem (K : List (Nat × Route)) (now ttl : Nat)
    (e : List Nat) :
    ∀ (acc : Client) (x : Nat × List Nat), x ∈ acc.rejectedU →
      x ∈ (K.foldl (fun a p => closeRouteC a now ttl p.1 (some e)) acc).rejectedU := by
  induction K with
  | nil =>
    intro acc x hx
    exact hx
  | cons hd tl ih =>
    intro acc x hx
    exact ih _ x (closeRouteC_rejected_mem _ _ _ _ _ x hx)

theorem flushFold_rejects (now ttl : Nat) (e : List Nat) :
    ∀ (K : List (Nat × Route)) (acc : Client),
      (K.map Prod.fst).Nodup →
      (∀ rid r, (rid, r) ∈ K → lookupRoute acc rid = some r) →
      ∀ rid r, (rid, r) ∈ K → r.state ≠ .closed → r.rtype = .unary →
        (rid, e) ∈ (K.foldl (fun a p => closeRouteC a now ttl p.1 (some e)) acc).rejectedU := by
  intro K
  induction K with
  | nil =>
    intro acc _ _ rid r hmem
    cases hmem
  | cons hd tl ih =>
    intro acc hnd hlook rid r hmem hst hrt
    simp only [List.foldl_cons]
    rcases List.mem_cons.mp hmem with heq | htl
    · have hreq := closeRouteC_unary_rejects acc now ttl rid r e
        (hlook rid r hmem) hst hrt
      have hstep : (rid, e) ∈ (closeRouteC acc now ttl hd.1 (some e)).rejectedU := by
        rw [← heq]
        rw [show ((rid, r) : Nat × Route).1 = rid from rfl, hreq]
        exact List.mem_append_right _ (by simp)
      exact flushFold_rejected_mem tl now ttl e _ _ hstep
    · apply ih
      · exact (List.nodup_cons.mp hnd).2
      · intro rid' r' hmem'
        have hne : rid' ≠ hd.1 := by
          intro hco
          apply (List.nodup_cons.mp hnd).1
          rw [← hco]
          exact List.mem_map.mpr ⟨(rid', r'), hmem', rfl⟩
        rw [closeRouteC_lookup_ne _ _ _ _ _ _ hne]
        exact hlook rid' r' (List.mem_cons_of_mem _ hmem')
      · exact htl
      · exact hst
      · exact hrt

/-! ## Claim theorems -/

/-- C1 (code_bug): encode-then-decode of a scan request payload whose
range has `gte` set and whose caps token is non-empty does NOT yield a
payload with caps present — the decoder reads the four range-presence
flags consecutively while the encoder interleaved each flag with its
bound's bytes, so the bound bytes are consumed as flags: the decoded
payload has caps absent (violating "caps present iff non-empty on the
sender") and a corrupted range. This theorem evaluates the codec at the
failing input. -/
theorem claim1_scan_codec_roundtrip_fails :
    scanReqEncode ⟨none, false, ⟨some [1], none, none, none⟩, some [7]⟩ =
      [0, 0, 1, 1, 1, 0, 0, 0, 1, 1, 7]
    ∧ scanReqDecode [0, 0, 1, 1, 1, 0, 0, 0, 1, 1, 7] =
      some ⟨none, false, some ⟨some [], some [], some [1], none⟩, none⟩
    ∧ capsToBytes (some [7]) = some [7]
    ∧ (scanReqDecode (scanReqEncode ⟨none, false, ⟨some [1], none, none, none⟩, some [7]⟩)).map
        ScanReqOut.caps = some none := by
  refine ⟨by decide, by decide, by decide, by decide⟩

/-- C2 (counterexample): a handler exception carrying the recognised code
`Timeout` is converted by `envelopeFromError` to a failure envelope whose
code is `Unknown`, not `Timeout` — the thrown value's code is never
consulted, contrary to the claim. -/
theorem claim2_counterexample :
    envelopeFromError (.errObj (ascii "boom") (some (ascii "Timeout"))) =
      .errE (ascii "Unknown") (ascii "boom")
    ∧ KNOWN_CODES.contains (ascii "Timeout") = true
    ∧ ascii "Unknown" ≠ ascii "Timeout" := by
  refine ⟨by decide, by decide, by decide⟩

/-- C2 (amended): whenever a server-side unary handler throws (and no
cancel was observed), the server replies with exactly one terminal failure
envelope whose message is the error's message and whose code is always
`Unknown`, regardless of any `code` carried by the thrown value; the
request path produces only this frame and never re-throws. -/
theorem claim2_handler_throw_reply (msg : List Nat) (code : Option (List Nat))
    (rid mid : Nat) :
    handleUnaryModel false (.error (.errObj msg code)) rid mid =
      [⟨rid, mid, false, encodeEnvelope (.errE (ascii "Unknown") msg)⟩]
    ∧ terminalCount (handleUnaryModel false (.error (.errObj msg code)) rid mid) = 1 := by
  constructor
  · simp [handleUnaryModel, respondOnce, envelopeFromError]
  · simp [handleUnaryModel, envelopeFromError, terminalCount_respondOnce]

/-- C3 (counterexample): an envelope buffered before `return()` IS yielded
by the next `next()` call after `return()` — the iterator serves its queue
before checking the closed/done state, so "no subsequent next() call
yields a further envelope" fails on a route that still has a buffered
envelope when `return()` is invoked. -/
theorem claim3_counterexample :
    (nextR (iterReturnR ⟨1, 3, .stream, .active, false, .okE none none,
        [.okE (some [42]) none], false, none, 0⟩).1).1
      = .yielded (.okE (some [42]) none) := by decide

/-- C3 (amended): once `return()` is invoked on a still-active scan route
with no queued error, the route closes, a cancel frame for it is sent iff
none was sent before, every envelope arriving afterwards is discarded
(never yielded), and the subsequent `next()` calls yield exactly the
envelopes already buffered at `return()` time, in order, then throw the
stream-cancelled error once, then report done. -/
theorem claim3_return_semantics (r : Route) (ha : r.state = .active)
    (he : r.error = none) (hr : r.rtype = .stream) :
    (iterReturnR r).1.state = .closed
    ∧ ((iterReturnR r).2 = true ↔ r.cancelSent = false)
    ∧ (∀ env, pushR env (iterReturnR r).1 = (iterReturnR r).1)
    ∧ consumeN (r.queue.length + 2) (iterReturnR r).1
        = r.queue.map NextRes.yielded
            ++ [NextRes.thrown streamCancelledMsg, NextRes.finished] := by
  obtain ⟨h1, h2⟩ := iterReturnR_shape r ha he hr
  refine ⟨by rw [h1], by rw [h2]; cases hcs : r.cancelSent <;> simp, ?_, ?_⟩
  · intro env
    rw [h1]
    simp [pushR]
  · rw [h1]
    have := consumeN_closed_drain r.queue streamCancelledMsg
      { r with state := .closed, cancelSent := true,
               error := some streamCancelledMsg, done := true } rfl
    simpa using this

/-- C3 witness: a concrete active stream route with one buffered envelope. -/
theorem claim3_witness :
    ((⟨7, 3, .stream, .active, false, .okE none none, [.okE none none], false,
        none, 0⟩ : Route).state = .active
      ∧ (⟨7, 3, .stream, .active, false, .okE none none, [.okE none none], false,
        none, 0⟩ : Route).error = none
      ∧ (⟨7, 3, .stream, .active, false, .okE none none, [.okE none none], false,
        none, 0⟩ : Route).rtype = .stream)
    ∧ ((iterReturnR ⟨7, 3, .stream, .active, false, .okE none none,
          [.okE none none], false, none, 0⟩).1.state = .closed
      ∧ ((iterReturnR ⟨7, 3, .stream, .active, false, .okE none none,
          [.okE none none], false, none, 0⟩).2 = true ↔
          (⟨7, 3, .stream, .active, false, .okE none none, [.okE none none], false,
            none, 0⟩ : Route).cancelSent = false)
      ∧ (∀ env, pushR env (iterReturnR ⟨7, 3, .stream, .active, false, .okE none none,
          [.okE none none], false, none, 0⟩).1 =
          (iterReturnR ⟨7, 3, .stream, .active, false, .okE none none,
            [.okE none none], false, none, 0⟩).1)
      ∧ consumeN ((⟨7, 3, .stream, .active, false, .okE none none, [.okE none none],
            false, none, 0⟩ : Route).queue.length + 2)
          (iterReturnR ⟨7, 3, .stream, .active, false, .okE none none,
            [.okE none none], false, none, 0⟩).1
        = (⟨7, 3, .stream, .active, false, .okE none none, [.okE none none], false,
            none, 0⟩ : Route).queue.map NextRes.yielded
            ++ [NextRes.thrown streamCancelledMsg, NextRes.finished]) :=
  ⟨⟨rfl, rfl, rfl⟩, claim3_return_semantics _ rfl rfl rfl⟩

/-- C4: when the timeout timer fires at time `now` while a unary route
with a positive timeout of `N` ms is still active, the client writes a
cancel frame for the rid (and `sendCancel` writes at most one frame per
route), resolves the call with the failure envelope
`{Timeout, "Request timed out after Nms"}`, removes the route and records
it as recently closed until `now + ttl`; any server response frame for
that rid arriving at a time `t ≤ now + ttl` is ignored at debug level with
no state change and no user-visible effect. -/
theorem claim4_timeout (c : Client) (r : Route) (now ttl rid N : Nat)
    (hr : lookupRoute c rid = some r) (ha : r.state = .active)
    (ht : r.rtype = .unary) (hcs : r.cancelSent = false)
    (hN : r.timeoutMs = N) (hNpos : 0 < N) (httl : 0 < ttl) :
    (timeoutFireC c now ttl rid).sentCancels = c.sentCancels ++ [(rid, r.mid)]
    ∧ (timeoutFireC c now ttl rid).resolvedU = c.resolvedU
        ++ [(rid, Envelope.errE (ascii "Timeout")
              (ascii ("Request timed out after " ++ toString N ++ "ms")))]
    ∧ lookupRoute (timeoutFireC c now ttl rid) rid = none
    ∧ lookupAssoc (timeoutFireC c now ttl rid).recentlyClosed rid = some (now + ttl)
    ∧ (∀ (f : RFrame) (t : Nat), f.rid = rid → t ≤ now + ttl →
        onDataC (timeoutFireC c now ttl rid) t ttl f
          = (timeoutFireC c now ttl rid, .ignoredDebug))
    ∧ (∀ r' : Route, (sendCancelR (sendCancelR r').1).2 = false) := by
  have hshape := timeoutFireC_shape c r now ttl rid hr ha ht hcs httl
  have henv : timeoutEnvelope r.timeoutMs
      = Envelope.errE (ascii "Timeout")
          (ascii ("Request timed out after " ++ toString N ++ "ms")) := by
    rw [hN]; simp [timeoutEnvelope, hNpos]
  refine ⟨by rw [hshape], by rw [hshape, henv], ?_, ?_, ?_, ?_⟩
  · rw [hshape]
    exact lookupAssoc_eraseAssoc_self _ _
  · rw [hshape]
    exact lookupAssoc_setAssoc_self _ _ _
  · intro f t hf htle
    unfold onDataC
    rw [hf]
    rw [show lookupRoute (timeoutFireC c now ttl rid) rid = none by
      rw [hshape]; exact lookupAssoc_eraseAssoc_self _ _]
    rw [show lookupAssoc (timeoutFireC c now ttl rid).recentlyClosed rid
        = some (now + ttl) by rw [hshape]; exact lookupAssoc_setAssoc_self _ _ _]
    simp [httl, htle]
  · intro r'
    by_cases h : r'.cancelSent <;> simp [sendCancelR, h]

/-- C4 witness: a concrete client with a single active unary route whose
5 ms timeout fires at time 100 with a 2000 ms orphan TTL. -/
theorem claim4_witness :
    (lookupRoute ⟨[(1, ⟨1, 0, .unary, .active, false, .okE none none, [], false,
          none, 5⟩)], [], [], [], [], []⟩ 1
        = some ⟨1, 0, .unary, .active, false, .okE none none, [], false, none, 5⟩
      ∧ (0 : Nat) < 5 ∧ (0 : Nat) < 2000)
    ∧ ((timeoutFireC ⟨[(1, ⟨1, 0, .unary, .active, false, .okE none none, [], false,
          none, 5⟩)], [], [], [], [], []⟩ 100 2000 1).sentCancels = [] ++ [(1, 0)]
      ∧ (timeoutFireC ⟨[(1, ⟨1, 0, .unary, .active, false, .okE none none, [], false,
          none, 5⟩)], [], [], [], [], []⟩ 100 2000 1).resolvedU = []
          ++ [(1, Envelope.errE (ascii "Timeout")
              (ascii ("Request timed out after " ++ toString (5 : Nat) ++ "ms")))]
      ∧ lookupRoute (timeoutFireC ⟨[(1, ⟨1, 0, .unary, .active, false, .okE none none,
          [], false, none, 5⟩)], [], [], [], [], []⟩ 100 2000 1) 1 = none
      ∧ lookupAssoc (timeoutFireC ⟨[(1, ⟨1, 0, .unary, .active, false, .okE none none,
          [], false, none, 5⟩)], [], [], [], [], []⟩ 100 2000 1).recentlyClosed 1
          = some (100 + 2000)
      ∧ (∀ (f : RFrame) (t : Nat), f.rid = 1 → t ≤ 100 + 2000 →
          onDataC (timeoutFireC ⟨[(1, ⟨1, 0, .unary, .active, false, .okE none none,
            [], false, none, 5⟩)], [], [], [], [], []⟩ 100 2000 1) t 2000 f
            = (timeoutFireC ⟨[(1, ⟨1, 0, .unary, .active, false, .okE none none,
              [], false, none, 5⟩)], [], [], [], [], []⟩ 100 2000 1, .ignoredDebug))
      ∧ (∀ r' : Route, (sendCancelR (sendCancelR r').1).2 = false)) :=
  ⟨⟨by decide, by decide, by decide⟩,
   claim4_timeout ⟨[(1, ⟨1, 0, .unary, .active, false, .okE none none, [], false,
      none, 5⟩)], [], [], [], [], []⟩
     ⟨1, 0, .unary, .active, false, .okE none none, [], false, none, 5⟩
     100 2000 1 5 (by decide) rfl rfl rfl rfl (by decide) (by decide)⟩

/-- C5: per request, the server emits at most one terminal (`more=0`)
frame; a unary handler outcome arriving after a cancel was observed emits
nothing at all; and a scan cancelled after `k` envelopes emits exactly the
first `k` streamed envelopes and no terminal frame. -/
theorem claim5_terminal_frames :
    (∀ (cfg : ServerCfg) (inflightSize : Nat) (port : PortSpec) (beh : ReqBehavior)
       (rid mid : Nat) (payload : List Nat),
       terminalCount (handleReqModel cfg inflightSize port beh rid mid payload).frames ≤ 1)
    ∧ (∀ (outcome : Except Thrown (Option Envelope)) (rid mid : Nat),
        handleUnaryModel true outcome rid mid = [])
    ∧ (∀ (k : Nat) (sc : ScanOutcome) (rid mid : Nat),
        handleScanModel (some k) sc rid mid =
          (sc.yields.take k).map (fun env => SFrame.mk rid mid true (encodeEnvelope env))
        ∧ terminalCount (handleScanModel (some k) sc rid mid) = 0) := by
  refine ⟨?_, ?_, ?_⟩
  · intro cfg inflightSize port beh rid mid payload
    unfold handleReqModel
    split_ifs <;>
      first
        | exact (terminalCount_respondOnce _ _ _).le
        | exact terminalCount_handleUnary _ _ _ _
        | (rcases hs : beh.scanStart with e | _ | sc <;>
            first
              | exact (terminalCount_respondOnce _ _ _).le
              | exact terminalCount_handleScan _ _ _ _)
  · intro outcome rid mid
    cases outcome <;> simp [handleUnaryModel]
  · intro k sc rid mid
    exact ⟨rfl, terminalCount_dataFrames rid mid (sc.yields.take k)⟩

/-- C6: the default request byte cap is 262144; a request frame whose
payload exceeds the configured cap is answered with a single terminal
`PayloadTooLarge` envelope and the handler is never invoked; and on the
client, a call whose encoded payload exceeds the cap (with the route limit
not yet reached) throws synchronously with code `PayloadTooLarge` before
any request frame is written or route inserted. -/
theorem claim6_payload_limit :
    DEFAULT_MAX_REQ_BYTES = 262144
    ∧ (∀ (cfg : ServerCfg) (inflightSize : Nat) (port : PortSpec) (beh : ReqBehavior)
        (rid mid : Nat) (payload : List Nat),
        payload.length > cfg.maxReqBytes →
        handleReqModel cfg inflightSize port beh rid mid payload =
          { frames := [⟨rid, mid, false, encodeEnvelope
              (.errE (ascii "PayloadTooLarge") (ascii "Request payload exceeds limit"))⟩],
            handlerInvoked := false, destroyed := false })
    ∧ (∀ (routesCount maxClientRoutes mid payloadLen maxReq : Nat),
        (maxClientRoutes = 0 ∨ routesCount < maxClientRoutes) →
        payloadLen > maxReq →
        startRouteModel routesCount maxClientRoutes mid payloadLen maxReq =
          { thrown := some (payloadTooLargeErr payloadLen maxReq mid),
            frameWritten := false, routeAdded := false, destroyedDuplex := false }
        ∧ (payloadTooLargeErr payloadLen maxReq mid).code = some (ascii "PayloadTooLarge")) := by
  refine ⟨rfl, ?_, ?_⟩
  · intro cfg inflightSize port beh rid mid payload h
    unfold handleReqModel
    rw [if_pos h]
    rfl
  · intro routesCount maxClientRoutes mid payloadLen maxReq hroutes hlen
    constructor
    · unfold startRouteModel
      rw [if_neg (by omega), if_pos hlen]
    · rfl

/-- C6 witness: a concrete oversized request on both ends. -/
theorem claim6_witness :
    (([0, 0, 0, 0] : List Nat).length > (ServerCfg.mk 3 256).maxReqBytes
      ∧ handleReqModel ⟨3, 256⟩ 0 ⟨true, true, true, true, true⟩
          ⟨.ok none, false, .notIterable, none⟩ 1 0 [0, 0, 0, 0] =
        { frames := [⟨1, 0, false, encodeEnvelope
            (.errE (ascii "PayloadTooLarge") (ascii "Request payload exceeds limit"))⟩],
          handlerInvoked := false, destroyed := false })
    ∧ ((0 = 0 ∨ (0 : Nat) < 0) ∧ (4 : Nat) > 3
      ∧ startRouteModel 0 0 1 4 3 =
          { thrown := some (payloadTooLargeErr 4 3 1),
            frameWritten := false, routeAdded := false, destroyedDuplex := false }
      ∧ (payloadTooLargeErr 4 3 1).code = some (ascii "PayloadTooLarge")) := by
  refine ⟨⟨by decide, claim6_payload_limit.2.1 ⟨3, 256⟩ 0 ⟨true, true, true, true, true⟩
      ⟨.ok none, false, .notIterable, none⟩ 1 0 [0, 0, 0, 0] (by decide)⟩,
    Or.inl rfl, by decide, claim6_payload_limit.2.2 0 0 1 4 3 (Or.inl rfl) (by decide)⟩

/-- C7: encode-then-decode of an envelope is the identity — success
envelopes preserve the optional value bytes and optional meta key exactly;
failure envelopes with a code from the closed set preserve code and
message exactly; a failure code outside the closed set decodes to
`Unknown` (message still preserved). The length bounds are those of the
u32/u16 wire length prefixes. -/
theorem claim7_envelope_roundtrip :
    (∀ (v mk : Option (List Nat)),
      (v.getD []).length ≤ 0xffffffff → (mk.getD []).length ≤ 0xffffffff →
      decodeEnvelope (encodeEnvelope (.okE v mk)) = some (.okE v mk))
    ∧ (∀ (code msg : List Nat), code ∈ KNOWN_CODES → msg.length ≤ 0xffff →
      decodeEnvelope (encodeEnvelope (.errE code msg)) = some (.errE code msg))
    ∧ (∀ (code msg : List Nat), code ∉ KNOWN_CODES → code ≠ [] →
      code.length ≤ 0xffff → msg.length ≤ 0xffff →
      decodeEnvelope (encodeEnvelope (.errE code msg)) =
        some (.errE (ascii "Unknown") msg)) := by
  refine ⟨?_, ?_, ?_⟩
  · intro v mk hv hmk
    cases v <;> cases mk <;>
      simp_all [encodeEnvelope, decodeEnvelope, decodeBool_encode,
        decodeBytesBlock_encode, decodeBytesBlock_encode_self,
        decodeBytesBlock_encode_zero, decodeBytesBlock_encode_zero_self,
        List.append_assoc]
  · intro code msg hmem hmsg
    obtain ⟨hne, hlen⟩ := known_code_facts code hmem
    have hemp : code.isEmpty = false := by
      cases code
      · exact absurd rfl hne
      · rfl
    have hnorm : normalizeCode code = code := by simp [normalizeCode, hmem]
    simp [encodeEnvelope, decodeEnvelope, hemp, List.append_assoc,
      decodeBool_encode, decodeStringBlock_encode _ _ hlen,
      decodeStringBlock_encode_self _ hmsg, decodeStringBlock_encode_zero,
      decodeStringBlock_encode_zero_self, hnorm]
  · intro code msg hnot hne hlen hmsg
    have hemp : code.isEmpty = false := by
      cases code
      · exact absurd rfl hne
      · rfl
    have hnorm : normalizeCode code = ascii "Unknown" := by
      simp [normalizeCode, hnot]
    simp [encodeEnvelope, decodeEnvelope, hemp, List.append_assoc,
      decodeBool_encode, decodeStringBlock_encode _ _ hlen,
      decodeStringBlock_encode_self _ hmsg, decodeStringBlock_encode_zero,
      decodeStringBlock_encode_zero_self, hnorm]

/-- C7 witness: concrete round trips — a success envelope with value and
meta key, the known code `Timeout`, and the unknown code `Bogus`. -/
theorem claim7_witness :
    ((((some [1, 2]) : Option (List Nat)).getD []).length ≤ 0xffffffff
      ∧ (((some [3]) : Option (List Nat)).getD []).length ≤ 0xffffffff
      ∧ decodeEnvelope (encodeEnvelope (.okE (some [1, 2]) (some [3])))
          = some (.okE (some [1, 2]) (some [3])))
    ∧ (ascii "Timeout" ∈ KNOWN_CODES ∧ (ascii "boom").length ≤ 0xffff
      ∧ decodeEnvelope (encodeEnvelope (.errE (ascii "Timeout") (ascii "boom")))
          = some (.errE (ascii "Timeout") (ascii "boom")))
    ∧ (ascii "Bogus" ∉ KNOWN_CODES ∧ ascii "Bogus" ≠ []
      ∧ (ascii "Bogus").length ≤ 0xffff ∧ (ascii "oops").length ≤ 0xffff
      ∧ decodeEnvelope (encodeEnvelope (.errE (ascii "Bogus") (ascii "oops")))
          = some (.errE (ascii "Unknown") (ascii "oops"))) :=
  ⟨⟨by decide, by decide,
    claim7_envelope_roundtrip.1 (some [1, 2]) (some [3]) (by decide) (by decide)⟩,
   ⟨by decide, by decide,
    claim7_envelope_roundtrip.2.1 (ascii "Timeout") (ascii "boom") (by decide) (by decide)⟩,
   ⟨by decide, by decide, by decide, by decide,
    claim7_envelope_roundtrip.2.2 (ascii "Bogus") (ascii "oops") (by decide) (by decide)
      (by decide) (by decide)⟩⟩

/-- C8: for a non-empty eligible list and a non-empty normalized key, the
sticky policy selects `eligible[h mod N]` where `h` is the unsigned 32-bit
djb2 hash described by the spec (`h` starts at 5381; `h := h*33 + byte`
modulo 2^32) — the JavaScript arithmetic of `hashKey`, with its signed
32-bit shifts, computes exactly that hash; the selection is independent of
the round-robin counter (hence deterministic for a fixed eligibility set
and key); non-empty string keys are UTF-8 encoded by `normalizeKey`; and
an absent or empty key falls back to round-robin. -/
theorem claim8_sticky {α : Type} (eligible : List α) (bs : List Nat)
    (rr rr2 : Nat) (s : String) (hne : eligible ≠ []) (hbs : bs ≠ [])
    (hs : s ≠ "") :
    (pickSticky eligible (some bs) rr).1 = eligible.get? (djb2Spec bs % eligible.length)
    ∧ (pickSticky eligible (some bs) rr).1 = (pickSticky eligible (some bs) rr2).1
    ∧ hashKey bs = djb2Spec bs
    ∧ normalizeKey (.str s) = some (utf8Bytes s)
    ∧ pickSticky eligible none rr = pickRoundRobin eligible rr
    ∧ pickSticky eligible (some []) rr = pickRoundRobin eligible rr := by
  have hle : eligible.isEmpty = false := by
    cases eligible
    · exact absurd rfl hne
    · rfl
  have hbe : bs.isEmpty = false := by
    cases bs
    · exact absurd rfl hbs
    · rfl
  refine ⟨?_, ?_, hashKey_eq_djb2Spec bs, ?_, ?_, ?_⟩
  · simp [pickSticky, hle, hbe, hashKey_eq_djb2Spec]
  · simp [pickSticky, hle, hbe]
  · simp [normalizeKey, hs]
  · simp [pickSticky, hle]
  · simp [pickSticky, hle]

/-- C8 witness: two eligible peers, the key bytes `[5]`, two different
round-robin counters, and the string key "a". -/
theorem claim8_witness :
    (([10, 20] : List Nat) ≠ [] ∧ ([5] : List Nat) ≠ [] ∧ "a" ≠ "")
    ∧ ((pickSticky [10, 20] (some [5]) 0).1
        = ([10, 20] : List Nat).get? (djb2Spec [5] % ([10, 20] : List Nat).length)
      ∧ (pickSticky [10, 20] (some [5]) 0).1 = (pickSticky [10, 20] (some [5]) 3).1
      ∧ hashKey [5] = djb2Spec [5]
      ∧ normalizeKey (.str "a") = some (utf8Bytes "a")
      ∧ pickSticky ([10, 20] : List Nat) none 0 = pickRoundRobin [10, 20] 0
      ∧ pickSticky ([10, 20] : List Nat) (some []) 0 = pickRoundRobin [10, 20] 0) :=
  ⟨⟨by decide, by decide, by decide⟩,
   claim8_sticky [10, 20] [5] 0 3 "a" (by decide) (by decide) (by decide)⟩

/-- C10: the client proxy's `close()` and `destroy()` are the same
operation — both destroy the underlying duplex and resolve with the
success envelope `ok()`; the teardown flushes the route table, and every
pending (non-closed) unary route is rejected with the connection-closed
error, in both cases alike. -/
theorem claim10_close_destroy (c : Client) (now ttl : Nat) :
    proxyCloseC c now ttl = proxyDestroyC c now ttl
    ∧ (proxyCloseC c now ttl).2 = Envelope.okE none none
    ∧ (proxyCloseC c now ttl).1.routes = []
    ∧ (∀ rid r, (rid, r) ∈ c.routes → (c.routes.map Prod.fst).Nodup →
        r.state ≠ .closed → r.rtype = .unary →
        (rid, ascii "Connection closed") ∈ (proxyCloseC c now ttl).1.rejectedU) := by
  refine ⟨rfl, rfl, rfl, ?_⟩
  intro rid r hmem hnd hst hrt
  show (rid, ascii "Connection closed")
      ∈ (flushAllC c now ttl (ascii "Connection closed")).rejectedU
  exact flushFold_rejects now ttl (ascii "Connection closed") c.routes c hnd
    (fun rid' r' hm => mem_lookupAssoc c.routes rid' r' hm hnd) rid r hmem hst hrt

/-- C10 witness: a client with one pending active unary route at time 5,
TTL 2000. -/
theorem claim10_witness :
    proxyCloseC ⟨[(1, ⟨1, 0, .unary, .active, false, .okE none none, [], false,
        none, 0⟩)], [], [], [], [], []⟩ 5 2000
      = proxyDestroyC ⟨[(1, ⟨1, 0, .unary, .active, false, .okE none none, [], false,
        none, 0⟩)], [], [], [], [], []⟩ 5 2000
    ∧ ((1, ⟨1, 0, .unary, .active, false, .okE none none, [], false, none, 0⟩)
        ∈ (⟨[(1, ⟨1, 0, .unary, .active, false, .okE none none, [], false,
          none, 0⟩)], [], [], [], [], []⟩ : Client).routes
      ∧ (((⟨[(1, ⟨1, 0, .unary, .active, false, .okE none none, [], false,
          none, 0⟩)], [], [], [], [], []⟩ : Client).routes.map Prod.fst).Nodup)
      ∧ (⟨1, 0, .unary, .active, false, .okE none none, [], false, none,
          0⟩ : Route).state ≠ .closed
      ∧ (⟨1, 0, .unary, .active, false, .okE none none, [], false, none,
          0⟩ : Route).rtype = .unary)
    ∧ (1, ascii "Connection closed")
        ∈ (proxyCloseC ⟨[(1, ⟨1, 0, .unary, .active, false, .okE none none, [], false,
          none, 0⟩)], [], [], [], [], []⟩ 5 2000).1.rejectedU :=
  ⟨(claim10_close_destroy _ 5 2000).1,
   ⟨by decide, by decide, by decide, by decide⟩,
   (claim10_close_destroy ⟨[(1, ⟨1, 0, .unary, .active, false, .okE none none, [],
       false, none, 0⟩)], [], [], [], [], []⟩ 5 2000).2.2.2 1
     ⟨1, 0, .unary, .active, false, .okE none none, [], false, none, 0⟩
     (by decide) (by decide) (by decide) (by decide)⟩

/-- C9: when the channel is not already open, `open(cfg)` ensures the
channel exists and then opens it with the `handshakeMessage` when one is
provided, with no payload when a `handshakeEncoding` is set but no message
is given, and with the zero-length buffer otherwise. -/
theorem claim9_open_handshake (cfg : ChanCfg) (h : cfg.chanOpen = false) :
    (openPlexChannelModel cfg).chanExists = true
    ∧ (openPlexChannelModel cfg).openedWith =
        some (match cfg.handshakeMessage with
              | some m => some m
              | none => if cfg.handshakeEncoding then none else some zeroBuff) := by
  unfold openPlexChannelModel
  rw [if_neg (by simp [h])]
  exact ⟨rfl, rfl⟩

/-- C9 witness: a closed channel with a handshake encoding and no
handshake message opens with no payload. -/
theorem claim9_witness :
    (ChanCfg.mk false false none true).chanOpen = false
    ∧ ((openPlexChannelModel ⟨false, false, none, true⟩).chanExists = true
      ∧ (openPlexChannelModel ⟨false, false, none, true⟩).openedWith =
          some (match (ChanCfg.mk false false none true).handshakeMessage with
                | some m => some m
                | none => if (ChanCfg.mk false false none true).handshakeEncoding
                          then none else some zeroBuff)) :=
  ⟨rfl, claim9_open_handshake ⟨false, false, none, true⟩ rfl⟩

end Neonplex
